import Mathlib

/-!
# i2c_imu: the parameter resolver and the acquisition loop of `i2c_imu_node.cpp`

A shallow embedding of `I2cImu::ImuSettings::loadSettings`, of the constructor
`I2cImu::I2cImu`, and of `I2cImu::update` and `I2cImu::spin`.

The node computes in floating point.  The embedding is parametric in the
scalar type `F`: it uses only the operations the source applies to it (a
literal, a product, a quotient, a negation, the conversion of an `int`), so
every theorem
holds for whatever arithmetic interprets them.  Values of the narrower
`RTFLOAT` are taken as already widened to `F`.

ROS (`ros::NodeHandle`, `ros::Publisher`, `ros::Time`), RTIMULib (`RTIMU`,
`RTIMUSettings`) and `angles::to_degrees` are external libraries: they enter as
parameters.  For the value of the stored declination, `angles::to_degrees` is
in addition given in exact rational arithmetic.
-/

namespace I2cImuNode

/-! ## The parameter server -/

/-- The private `ros::NodeHandle` as a parameter source.  Each getter answers
`some v` when the key is present and readable at that type and `none`
otherwise (absent key, wrong type). -/
structure NodeHandle (F : Type) where
  /-- Lookup of an `int` parameter. -/
  getInt : String → Option Int
  /-- Lookup of a `double` parameter. -/
  getDouble : String → Option F
  /-- Lookup of a `bool` parameter. -/
  getBool : String → Option Bool
  /-- Lookup of a `std::string` parameter. -/
  getString : String → Option String
  /-- Lookup of a `std::vector<int>` parameter. -/
  getIntVector : String → Option (List Int)

/-- The call `getParam(key, var)` on an `int` variable passed by reference:
the value of the variable afterwards.  It is overwritten when the key is
readable and keeps its value otherwise. -/
def NodeHandle.getParam {F : Type} (nh : NodeHandle F) (key : String) (var : Int) : Int :=
  match nh.getInt key with
  | some v => v
  | none => var

/-- The call `param(key, var, default)` on a `double` variable: the value of
the variable afterwards, the default when the key is not readable. -/
def NodeHandle.paramDouble {F : Type} (nh : NodeHandle F) (key : String) (default_val : F) : F :=
  match nh.getDouble key with
  | some v => v
  | none => default_val

/-- The call `param(key, var, default)` on a `bool` variable. -/
def NodeHandle.paramBool {F : Type} (nh : NodeHandle F) (key : String) (default_val : Bool) :
    Bool :=
  match nh.getBool key with
  | some v => v
  | none => default_val

/-- The call `param<std::string>(key, var, default)`. -/
def NodeHandle.paramString {F : Type} (nh : NodeHandle F) (key : String)
    (default_val : String) : String :=
  match nh.getString key with
  | some v => v
  | none => default_val

/-- The conversion `(unsigned char) i` of an `int`: reduction modulo 256. -/
def unsigned_char (i : Int) : Int := i % 256

/-! ## The settings record -/

/-- The class `RTVector3`: three scalars. -/
structure RTVector3 (F : Type) where
  x : F
  y : F
  z : F
deriving DecidableEq

/-- The fields of `RTIMUSettings` that `loadSettings` writes. -/
structure I2cImu.ImuSettings (F : Type) where
  m_imuType : Int
  m_fusionType : Int
  m_I2CBus : Int
  m_I2CSlaveAddress : Int
  m_compassAdjDeclination : F
  m_MPU9150GyroAccelSampleRate : Int
  m_MPU9150CompassSampleRate : Int
  m_MPU9150AccelFsr : Int
  m_MPU9150GyroAccelLpf : Int
  m_MPU9150GyroFsr : Int
  m_MPU9250GyroAccelSampleRate : Int
  m_MPU9250CompassSampleRate : Int
  m_MPU9250AccelFsr : Int
  m_MPU9250AccelLpf : Int
  m_MPU9250GyroFsr : Int
  m_MPU9250GyroLpf : Int
  m_GD20HM303DGyroSampleRate : Int
  m_GD20HM303DAccelSampleRate : Int
  m_GD20HM303DCompassSampleRate : Int
  m_GD20HM303DAccelFsr : Int
  m_GD20HM303DGyroFsr : Int
  m_GD20HM303DCompassFsr : Int
  m_GD20HM303DAccelLpf : Int
  m_GD20HM303DGyroHpf : Int
  m_GD20HM303DGyroBW : Int
  m_GD20M303DLHCGyroSampleRate : Int
  m_GD20M303DLHCAccelSampleRate : Int
  m_GD20M303DLHCCompassSampleRate : Int
  m_GD20M303DLHCAccelFsr : Int
  m_GD20M303DLHCGyroFsr : Int
  m_GD20M303DLHCCompassFsr : Int
  m_GD20M303DLHCGyroHpf : Int
  m_GD20M303DLHCGyroBW : Int
  m_GD20HM303DLHCGyroSampleRate : Int
  m_GD20HM303DLHCAccelSampleRate : Int
  m_GD20HM303DLHCCompassSampleRate : Int
  m_GD20HM303DLHCAccelFsr : Int
  m_GD20HM303DLHCGyroFsr : Int
  m_GD20HM303DLHCCompassFsr : Int
  m_GD20HM303DLHCGyroHpf : Int
  m_GD20HM303DLHCGyroBW : Int
  m_LSM9DS0GyroSampleRate : Int
  m_LSM9DS0AccelSampleRate : Int
  m_LSM9DS0CompassSampleRate : Int
  m_LSM9DS0AccelFsr : Int
  m_LSM9DS0GyroFsr : Int
  m_LSM9DS0CompassFsr : Int
  m_LSM9DS0AccelLpf : Int
  m_LSM9DS0GyroHpf : Int
  m_LSM9DS0GyroBW : Int
  m_compassCalValid : Bool
  m_compassCalMin : RTVector3 F
  m_compassCalMax : RTVector3 F

section Settings

variable {F : Type} [OfScientific F] [IntCast F]

/-- The constructor `RTVector3(x, y, z)` applied to three `int`s, each
converted to the scalar type. -/
def RTVector3.ofInts (x y z : Int) : RTVector3 F := ⟨(x : F), (y : F), (z : F)⟩

/-- The last statement of `loadSettings`: the calibration triple
(`m_compassCalValid`, `m_compassCalMin`, `m_compassCalMax`) afterwards.  It is
written only when both bounds are readable and both have 3 components. -/
def I2cImu.ImuSettings.loadCalib (nh : NodeHandle F) (s : I2cImu.ImuSettings F) :
    Bool × RTVector3 F × RTVector3 F :=
  match nh.getIntVector "calib/compass_min" with
  | none => (s.m_compassCalValid, s.m_compassCalMin, s.m_compassCalMax)
  | some compass_min =>
    match nh.getIntVector "calib/compass_max" with
    | none => (s.m_compassCalValid, s.m_compassCalMin, s.m_compassCalMax)
    | some compass_max =>
      if compass_min.length = 3 ∧ compass_max.length = 3 then
        (true,
         RTVector3.ofInts (compass_min.getD 0 0) (compass_min.getD 1 0) (compass_min.getD 2 0),
         RTVector3.ofInts (compass_max.getD 0 0) (compass_max.getD 1 0) (compass_max.getD 2 0))
      else (s.m_compassCalValid, s.m_compassCalMin, s.m_compassCalMax)

/-- The method `I2cImu::ImuSettings::loadSettings`: the returned flag and the
settings afterwards.  Every statement of the source writes one field (the last
one three) and reads no field another statement writes, so the settings
afterwards are given field by field, in the order of the source.
`to_degrees` is `angles::to_degrees`. -/
def I2cImu.ImuSettings.loadSettings (to_degrees : F → F) (nh : NodeHandle F) (s : I2cImu.ImuSettings F) :
    Bool × I2cImu.ImuSettings F :=
  (true,
   { -- General
     m_imuType := nh.getParam "imu_type" s.m_imuType
     m_fusionType := nh.getParam "fusion_type" s.m_fusionType
     m_I2CBus :=
       match nh.getInt "i2c_bus" with
       | some temp_int => unsigned_char temp_int
       | none => s.m_I2CBus
     m_I2CSlaveAddress :=
       match nh.getInt "i2c_slave_address" with
       | some temp_int => unsigned_char temp_int
       | none => s.m_I2CSlaveAddress
     m_compassAdjDeclination :=
       to_degrees (nh.paramDouble "magnetic_declination" (0.0 : F))
     -- MPU9150
     m_MPU9150GyroAccelSampleRate := nh.getParam "mpu9150/gyro_accel_sample_rate" s.m_MPU9150GyroAccelSampleRate
     m_MPU9150CompassSampleRate := nh.getParam "mpu9150/compass_sample_rate" s.m_MPU9150CompassSampleRate
     m_MPU9150AccelFsr := nh.getParam "mpu9150/accel_full_scale_range" s.m_MPU9150AccelFsr
     m_MPU9150GyroAccelLpf := nh.getParam "mpu9150/gyro_accel_low_pass_filter" s.m_MPU9150GyroAccelLpf
     m_MPU9150GyroFsr := nh.getParam "mpu9150/gyro_full_scale_range" s.m_MPU9150GyroFsr
     -- MPU9250
     m_MPU9250GyroAccelSampleRate := nh.getParam "mpu9250/gyro_accel_sample_rate" s.m_MPU9250GyroAccelSampleRate
     m_MPU9250CompassSampleRate := nh.getParam "mpu9250/compass_sample_rate" s.m_MPU9250CompassSampleRate
     m_MPU9250AccelFsr := nh.getParam "mpu9250/accel_full_scale_range" s.m_MPU9250AccelFsr
     m_MPU9250AccelLpf := nh.getParam "mpu9250/accel_low_pass_filter" s.m_MPU9250AccelLpf
     m_MPU9250GyroFsr := nh.getParam "mpu9250/gyro_full_scale_range" s.m_MPU9250GyroFsr
     m_MPU9250GyroLpf := nh.getParam "mpu9250/gyro_low_pass_filter" s.m_MPU9250GyroLpf
     -- GD20HM303D
     m_GD20HM303DGyroSampleRate := nh.getParam "GD20HM303D/gyro_sample_rate" s.m_GD20HM303DGyroSampleRate
     m_GD20HM303DAccelSampleRate := nh.getParam "GD20HM303D/accel_sample_rate" s.m_GD20HM303DAccelSampleRate
     m_GD20HM303DCompassSampleRate := nh.getParam "GD20HM303D/compass_sample_rate" s.m_GD20HM303DCompassSampleRate
     m_GD20HM303DAccelFsr := nh.getParam "GD20HM303D/accel_full_scale_range" s.m_GD20HM303DAccelFsr
     m_GD20HM303DGyroFsr := nh.getParam "GD20HM303D/gyro_full_scale_range" s.m_GD20HM303DGyroFsr
     m_GD20HM303DCompassFsr := nh.getParam "GD20HM303D/compass_full_scale_range" s.m_GD20HM303DCompassFsr
     m_GD20HM303DAccelLpf := nh.getParam "GD20HM303D/accel_low_pass_filter" s.m_GD20HM303DAccelLpf
     m_GD20HM303DGyroHpf := nh.getParam "GD20HM303D/gyro_high_pass_filter" s.m_GD20HM303DGyroHpf
     m_GD20HM303DGyroBW := nh.getParam "GD20HM303D/gyro_bandwidth" s.m_GD20HM303DGyroBW
     -- GD20M303DLHC
     m_GD20M303DLHCGyroSampleRate := nh.getParam "GD20M303DLHC/gyro_sample_rate" s.m_GD20M303DLHCGyroSampleRate
     m_GD20M303DLHCAccelSampleRate := nh.getParam "GD20M303DLHC/accel_sample_rate" s.m_GD20M303DLHCAccelSampleRate
     m_GD20M303DLHCCompassSampleRate := nh.getParam "GD20M303DLHC/compass_sample_rate" s.m_GD20M303DLHCCompassSampleRate
     m_GD20M303DLHCAccelFsr := nh.getParam "GD20M303DLHC/accel_full_scale_range" s.m_GD20M303DLHCAccelFsr
     m_GD20M303DLHCGyroFsr := nh.getParam "GD20M303DLHC/gyro_full_scale_range" s.m_GD20M303DLHCGyroFsr
     m_GD20M303DLHCCompassFsr := nh.getParam "GD20M303DLHC/compass_full_scale_range" s.m_GD20M303DLHCCompassFsr
     m_GD20M303DLHCGyroHpf := nh.getParam "GD20M303DLHC/gyro_high_pass_filter" s.m_GD20M303DLHCGyroHpf
     m_GD20M303DLHCGyroBW := nh.getParam "GD20M303DLHC/gyro_bandwidth" s.m_GD20M303DLHCGyroBW
     -- GD20HM303DLHC
     m_GD20HM303DLHCGyroSampleRate := nh.getParam "GD20HM303DLHC/gyro_sample_rate" s.m_GD20HM303DLHCGyroSampleRate
     m_GD20HM303DLHCAccelSampleRate := nh.getParam "GD20HM303DLHC/accel_sample_rate" s.m_GD20HM303DLHCAccelSampleRate
     m_GD20HM303DLHCCompassSampleRate := nh.getParam "GD20HM303DLHC/compass_sample_rate" s.m_GD20HM303DLHCCompassSampleRate
     m_GD20HM303DLHCAccelFsr := nh.getParam "GD20HM303DLHC/accel_full_scale_range" s.m_GD20HM303DLHCAccelFsr
     m_GD20HM303DLHCGyroFsr := nh.getParam "GD20HM303DLHC/gyro_full_scale_range" s.m_GD20HM303DLHCGyroFsr
     m_GD20HM303DLHCCompassFsr := nh.getParam "GD20HM303DLHC/compass_full_scale_range" s.m_GD20HM303DLHCCompassFsr
     m_GD20HM303DLHCGyroHpf := nh.getParam "GD20HM303DLHC/gyro_high_pass_filter" s.m_GD20HM303DLHCGyroHpf
     m_GD20HM303DLHCGyroBW := nh.getParam "GD20HM303DLHC/gyro_bandwidth" s.m_GD20HM303DLHCGyroBW
     -- LSM9DS0
     m_LSM9DS0GyroSampleRate := nh.getParam "LSM9DS0/gyro_sample_rate" s.m_LSM9DS0GyroSampleRate
     m_LSM9DS0AccelSampleRate := nh.getParam "LSM9DS0/accel_sample_rate" s.m_LSM9DS0AccelSampleRate
     m_LSM9DS0CompassSampleRate := nh.getParam "LSM9DS0/compass_sample_rate" s.m_LSM9DS0CompassSampleRate
     m_LSM9DS0AccelFsr := nh.getParam "LSM9DS0/accel_full_scale_range" s.m_LSM9DS0AccelFsr
     m_LSM9DS0GyroFsr := nh.getParam "LSM9DS0/gyro_full_scale_range" s.m_LSM9DS0GyroFsr
     m_LSM9DS0CompassFsr := nh.getParam "LSM9DS0/compass_full_scale_range" s.m_LSM9DS0CompassFsr
     m_LSM9DS0AccelLpf := nh.getParam "LSM9DS0/accel_low_pass_filter" s.m_LSM9DS0AccelLpf
     m_LSM9DS0GyroHpf := nh.getParam "LSM9DS0/gyro_high_pass_filter" s.m_LSM9DS0GyroHpf
     m_LSM9DS0GyroBW := nh.getParam "LSM9DS0/gyro_bandwidth" s.m_LSM9DS0GyroBW
     -- calib
     m_compassCalValid := (I2cImu.ImuSettings.loadCalib nh s).1
     m_compassCalMin := (I2cImu.ImuSettings.loadCalib nh s).2.1
     m_compassCalMax := (I2cImu.ImuSettings.loadCalib nh s).2.2 })

end Settings

/-! ## Samples, messages and publishers -/

/-- The class `RTQuaternion`: a scalar part and three vector components. -/
structure RTQuaternion (F : Type) where
  scalar : F
  x : F
  y : F
  z : F

/-- The fields of `RTIMU_DATA` that `update` reads. -/
structure RTIMU_DATA (F : Type) where
  fusionPose : RTVector3 F
  fusionQPose : RTQuaternion F
  gyro : RTVector3 F
  accel : RTVector3 F
  compass : RTVector3 F
  compassValid : Bool

/-- A reading of `ros::Time`. -/
abbrev Time := Nat

/-- The message `std_msgs::Header`: the fields the node sets. -/
structure Header where
  stamp : Time
  frame_id : String

/-- The message `geometry_msgs::Vector3`. -/
structure Vector3 (F : Type) where
  x : F
  y : F
  z : F

/-- The message `geometry_msgs::Quaternion`. -/
structure Quaternion (F : Type) where
  x : F
  y : F
  z : F
  w : F

/-- The message `sensor_msgs::Imu`: the fields the node sets. -/
structure Imu (F : Type) where
  header : Header
  orientation : Quaternion F
  angular_velocity : Vector3 F
  linear_acceleration : Vector3 F

/-- The message `geometry_msgs::Vector3Stamped`. -/
structure Vector3Stamped (F : Type) where
  header : Header
  vector : Vector3 F

/-- A message of one of the two types the node publishes. -/
inductive Message (F : Type) where
  | imu (msg : Imu F)
  | vector3Stamped (msg : Vector3Stamped F)

/-- One message handed to the transport, with the topic it went out on. -/
structure Publication (F : Type) where
  topic : String
  msg : Message F

/-- A `ros::Publisher`: the topic it was advertised on, `none` for a
default-constructed publisher. -/
structure Publisher where
  topic : Option String

/-- The default-constructed `ros::Publisher`. -/
def Publisher.empty : Publisher := ⟨none⟩

/-- The call `nh_.advertise<M>(topic, ...)`. -/
def advertise (topic : String) : Publisher := ⟨some topic⟩

/-- The test `pub != NULL`: true for an advertised publisher. -/
def Publisher.isValid (p : Publisher) : Bool := p.topic.isSome

/-- The call `pub.publish(msg)`: what goes out.  A publisher that was never
advertised sends nothing. -/
def Publisher.publish {F : Type} (p : Publisher) (msg : Message F) : List (Publication F) :=
  match p.topic with
  | some t => [⟨t, msg⟩]
  | none => []

/-! ## The device driver and the ROS runtime -/

/-- What lies outside the node, over a state `W` of the outside world: the
RTIMULib driver (`createIMU`, `IMUInit`, `IMUGetPollInterval`, `IMURead`,
`getIMUData`) and the ROS runtime (`ros::Time::now`, `nh_.ok`, `ros::spinOnce`,
`ros::Rate::sleep`). -/
structure Platform (W F : Type) where
  /-- The call `RTIMU::createIMU(&settings)`: the flag is false for `NULL`. -/
  createIMU : I2cImu.ImuSettings F → W → Bool × W
  /-- The call `imu_->IMUInit()`. -/
  IMUInit : W → Bool × W
  /-- The call `imu_->IMUGetPollInterval()`, in milliseconds. -/
  IMUGetPollInterval : W → Int
  /-- The call `imu_->IMURead()`: the flag is true when a sample was read. -/
  IMURead : W → Bool × W
  /-- The call `imu_->getIMUData()`: the sample last read. -/
  getIMUData : W → RTIMU_DATA F
  /-- The call `ros::Time::now()`. -/
  now : W → Time
  /-- The call `nh_.ok()`. -/
  ok : W → Bool
  /-- The call `ros::spinOnce()`. -/
  spinOnce : W → W
  /-- The call `r.sleep()` on a `ros::Rate` of the given frequency. -/
  sleep : F → W → W

/-! ## The node -/

/-- The data members of the class `I2cImu` (the device handle `imu_` lives in
the outside world). -/
structure I2cImu (F : Type) where
  imu_pub_ : Publisher
  magnetometer_pub_ : Publisher
  euler_pub_ : Publisher
  imu_frame_id_ : String
  imu_settings_ : I2cImu.ImuSettings F

/-- A call the constructor makes on the driver. -/
inductive DriverCall where
  | createIMU
  | IMUInit
deriving DecidableEq

/-- What one run of the node does, in order. -/
inductive Event (F : Type) where
  | publish (p : Publication F)
  | spinOnce
  | sleep

section Node

variable {W F : Type} [OfScientific F] [IntCast F] [Mul F] [Neg F] [Div F]

/-- The constant `G_2_MPSS`. -/
def G_2_MPSS : F := 9.80665

/-- The constructor up to and including `imu_settings_.loadSettings()`: the
data members it sets from the parameters.  `defaults` is the settings record
after `setDefaults()`. -/
def I2cImu.members (to_degrees : F → F) (defaults : I2cImu.ImuSettings F)
    (private_nh_ : NodeHandle F) : I2cImu F :=
  let imu_frame_id_ := private_nh_.paramString "frame_id" "imu_link"
  let imu_pub_ := advertise "data"
  let magnetometer := private_nh_.paramBool "publish_magnetometer" false
  let magnetometer_pub_ := if magnetometer then advertise "mag" else Publisher.empty
  let euler := private_nh_.paramBool "publish_euler" false
  let euler_pub_ := if euler then advertise "euler" else Publisher.empty
  let imu_settings_ := (defaults.loadSettings to_degrees private_nh_).2
  { imu_pub_ := imu_pub_
    magnetometer_pub_ := magnetometer_pub_
    euler_pub_ := euler_pub_
    imu_frame_id_ := imu_frame_id_
    imu_settings_ := imu_settings_ }

/-- The constructor `I2cImu::I2cImu` (named `construct` here, the type of the
node taking the name `I2cImu`): the calls made on the driver, and either
the constructed node with the world afterwards or the fatal error
(`ROS_FATAL` followed by `ROS_BREAK`, which stops the process). -/
def I2cImu.construct (pf : Platform W F) (to_degrees : F → F) (defaults : I2cImu.ImuSettings F)
    (private_nh_ : NodeHandle F) (w : W) :
    List DriverCall × Except String (I2cImu F × W) :=
  let node := I2cImu.members to_degrees defaults private_nh_
  -- now set up the IMU
  match pf.createIMU node.imu_settings_ w with
  | (false, _) => ([DriverCall.createIMU], Except.error "Failed to open the i2c device")
  | (true, w1) =>
    match pf.IMUInit w1 with
    | (false, _) =>
      ([DriverCall.createIMU, DriverCall.IMUInit], Except.error "Failed to init the IMU")
    | (true, w2) => ([DriverCall.createIMU, DriverCall.IMUInit], Except.ok (node, w2))

/-- The message `imu_msg` that the body of the loop of `update` fills in. -/
def I2cImu.imu_msg (node : I2cImu F) (imuData : RTIMU_DATA F) (current_time : Time) : Imu F :=
  { header := { stamp := current_time, frame_id := node.imu_frame_id_ }
    orientation :=
      { x := imuData.fusionQPose.x
        y := imuData.fusionQPose.y
        z := imuData.fusionQPose.z
        w := imuData.fusionQPose.scalar }
    angular_velocity := { x := imuData.gyro.x, y := imuData.gyro.y, z := imuData.gyro.z }
    linear_acceleration :=
      { x := imuData.accel.x * G_2_MPSS
        y := imuData.accel.y * G_2_MPSS
        z := imuData.accel.z * G_2_MPSS } }

/-- The body of the loop of `update` for one sample read at `current_time`:
the messages published, in order. -/
def I2cImu.publishSample (node : I2cImu F) (imuData : RTIMU_DATA F) (current_time : Time) :
    List (Publication F) :=
  let out := node.imu_pub_.publish (Message.imu (node.imu_msg imuData current_time))
  let out :=
    if node.magnetometer_pub_.isValid && imuData.compassValid then
      let msg : Vector3Stamped F :=
        { header := { stamp := current_time, frame_id := node.imu_frame_id_ }
          vector := { x := imuData.compass.x, y := imuData.compass.y, z := imuData.compass.z } }
      out ++ node.magnetometer_pub_.publish (Message.vector3Stamped msg)
    else out
  let out :=
    if node.euler_pub_.isValid then
      let msg : Vector3Stamped F :=
        { header := { stamp := current_time, frame_id := node.imu_frame_id_ }
          vector :=
            { x := imuData.fusionPose.x, y := imuData.fusionPose.y, z := -imuData.fusionPose.z } }
      out ++ node.euler_pub_.publish (Message.vector3Stamped msg)
    else out
  out

/-- The method `I2cImu::update`: the loop `while (imu_->IMURead())`, run for
at most `fuel` calls of `IMURead`.  The result is the messages published, in
order, and the world afterwards; `none` when the fuel runs out before
`IMURead` reports that no sample is left. -/
def I2cImu.update (pf : Platform W F) (node : I2cImu F) : Nat → W → Option (List (Publication F) × W)
  | 0, _ => none
  | fuel + 1, w =>
    match pf.IMURead w with
    | (false, w1) => some ([], w1)
    | (true, w1) =>
      let imuData := pf.getIMUData w1
      let current_time := pf.now w1
      match I2cImu.update pf node fuel w1 with
      | some (rest, w2) => some (node.publishSample imuData current_time ++ rest, w2)
      | none => none

/-- The frequency handed to `ros::Rate` in `spin`. -/
def I2cImu.rate (pf : Platform W F) (w : W) : F :=
  (1.0 : F) / (((pf.IMUGetPollInterval w : Int) : F) / (1000.0 : F))

/-- One pass through the body of the loop of `spin`: `update()`, then
`ros::spinOnce()`, then `r.sleep()`. -/
def I2cImu.spinTick (pf : Platform W F) (node : I2cImu F) (r : F) (fuel : Nat) (w : W) :
    Option (List (Event F) × W) :=
  match node.update pf fuel w with
  | none => none
  | some (published, w1) =>
    let w2 := pf.spinOnce w1
    let w3 := pf.sleep r w2
    some (published.map Event.publish ++ [Event.spinOnce, Event.sleep], w3)

/-- The loop `while (nh_.ok())` of `spin` for at most `ticks` passes, each
`update` with the given fuel. -/
def I2cImu.spinLoop (pf : Platform W F) (node : I2cImu F) (r : F) (fuel : Nat) :
    Nat → W → Option (List (Event F) × W)
  | 0, _ => none
  | ticks + 1, w =>
    if pf.ok w then
      match node.spinTick pf r fuel w with
      | none => none
      | some (events, w1) =>
        match I2cImu.spinLoop pf node r fuel ticks w1 with
        | some (rest, w2) => some (events ++ rest, w2)
        | none => none
    else some ([], w)

/-- The method `I2cImu::spin`: the rate is computed once from the poll
interval, then the loop runs. -/
def I2cImu.spin (pf : Platform W F) (node : I2cImu F) (fuel ticks : Nat) (w : W) :
    Option (List (Event F) × W) :=
  let r := I2cImu.rate pf w
  I2cImu.spinLoop pf node r fuel ticks w

end Node

/-! ## Vocabulary of the statements -/

/-- The keys that `loadSettings` reads with `getParam` straight into an `int`
member, each with the member it is read into, in the order of the source. -/
def I2cImu.ImuSettings.intParams {F : Type} : List (String × (I2cImu.ImuSettings F → Int)) :=
  [
   ("imu_type", fun s => s.m_imuType),
   ("fusion_type", fun s => s.m_fusionType),
   ("mpu9150/gyro_accel_sample_rate", fun s => s.m_MPU9150GyroAccelSampleRate),
   ("mpu9150/compass_sample_rate", fun s => s.m_MPU9150CompassSampleRate),
   ("mpu9150/accel_full_scale_range", fun s => s.m_MPU9150AccelFsr),
   ("mpu9150/gyro_accel_low_pass_filter", fun s => s.m_MPU9150GyroAccelLpf),
   ("mpu9150/gyro_full_scale_range", fun s => s.m_MPU9150GyroFsr),
   ("mpu9250/gyro_accel_sample_rate", fun s => s.m_MPU9250GyroAccelSampleRate),
   ("mpu9250/compass_sample_rate", fun s => s.m_MPU9250CompassSampleRate),
   ("mpu9250/accel_full_scale_range", fun s => s.m_MPU9250AccelFsr),
   ("mpu9250/accel_low_pass_filter", fun s => s.m_MPU9250AccelLpf),
   ("mpu9250/gyro_full_scale_range", fun s => s.m_MPU9250GyroFsr),
   ("mpu9250/gyro_low_pass_filter", fun s => s.m_MPU9250GyroLpf),
   ("GD20HM303D/gyro_sample_rate", fun s => s.m_GD20HM303DGyroSampleRate),
   ("GD20HM303D/accel_sample_rate", fun s => s.m_GD20HM303DAccelSampleRate),
   ("GD20HM303D/compass_sample_rate", fun s => s.m_GD20HM303DCompassSampleRate),
   ("GD20HM303D/accel_full_scale_range", fun s => s.m_GD20HM303DAccelFsr),
   ("GD20HM303D/gyro_full_scale_range", fun s => s.m_GD20HM303DGyroFsr),
   ("GD20HM303D/compass_full_scale_range", fun s => s.m_GD20HM303DCompassFsr),
   ("GD20HM303D/accel_low_pass_filter", fun s => s.m_GD20HM303DAccelLpf),
   ("GD20HM303D/gyro_high_pass_filter", fun s => s.m_GD20HM303DGyroHpf),
   ("GD20HM303D/gyro_bandwidth", fun s => s.m_GD20HM303DGyroBW),
   ("GD20M303DLHC/gyro_sample_rate", fun s => s.m_GD20M303DLHCGyroSampleRate),
   ("GD20M303DLHC/accel_sample_rate", fun s => s.m_GD20M303DLHCAccelSampleRate),
   ("GD20M303DLHC/compass_sample_rate", fun s => s.m_GD20M303DLHCCompassSampleRate),
   ("GD20M303DLHC/accel_full_scale_range", fun s => s.m_GD20M303DLHCAccelFsr),
   ("GD20M303DLHC/gyro_full_scale_range", fun s => s.m_GD20M303DLHCGyroFsr),
   ("GD20M303DLHC/compass_full_scale_range", fun s => s.m_GD20M303DLHCCompassFsr),
   ("GD20M303DLHC/gyro_high_pass_filter", fun s => s.m_GD20M303DLHCGyroHpf),
   ("GD20M303DLHC/gyro_bandwidth", fun s => s.m_GD20M303DLHCGyroBW),
   ("GD20HM303DLHC/gyro_sample_rate", fun s => s.m_GD20HM303DLHCGyroSampleRate),
   ("GD20HM303DLHC/accel_sample_rate", fun s => s.m_GD20HM303DLHCAccelSampleRate),
   ("GD20HM303DLHC/compass_sample_rate", fun s => s.m_GD20HM303DLHCCompassSampleRate),
   ("GD20HM303DLHC/accel_full_scale_range", fun s => s.m_GD20HM303DLHCAccelFsr),
   ("GD20HM303DLHC/gyro_full_scale_range", fun s => s.m_GD20HM303DLHCGyroFsr),
   ("GD20HM303DLHC/compass_full_scale_range", fun s => s.m_GD20HM303DLHCCompassFsr),
   ("GD20HM303DLHC/gyro_high_pass_filter", fun s => s.m_GD20HM303DLHCGyroHpf),
   ("GD20HM303DLHC/gyro_bandwidth", fun s => s.m_GD20HM303DLHCGyroBW),
   ("LSM9DS0/gyro_sample_rate", fun s => s.m_LSM9DS0GyroSampleRate),
   ("LSM9DS0/accel_sample_rate", fun s => s.m_LSM9DS0AccelSampleRate),
   ("LSM9DS0/compass_sample_rate", fun s => s.m_LSM9DS0CompassSampleRate),
   ("LSM9DS0/accel_full_scale_range", fun s => s.m_LSM9DS0AccelFsr),
   ("LSM9DS0/gyro_full_scale_range", fun s => s.m_LSM9DS0GyroFsr),
   ("LSM9DS0/compass_full_scale_range", fun s => s.m_LSM9DS0CompassFsr),
   ("LSM9DS0/accel_low_pass_filter", fun s => s.m_LSM9DS0AccelLpf),
   ("LSM9DS0/gyro_high_pass_filter", fun s => s.m_LSM9DS0GyroHpf),
   ("LSM9DS0/gyro_bandwidth", fun s => s.m_LSM9DS0GyroBW)]

section Drain

variable {W F : Type}

/-- Whether, from the world `w`, `IMURead` succeeds `n` times in a row and
then reports that no sample is left. -/
def Platform.readsExactly (pf : Platform W F) : Nat → W → Bool
  | 0, w => !(pf.IMURead w).1
  | n + 1, w => (pf.IMURead w).1 && Platform.readsExactly pf n (pf.IMURead w).2

/-- The samples the first `n` calls of `IMURead` make current, each with the
time read right after it, in the order they are read. -/
def Platform.drained (pf : Platform W F) : Nat → W → List (RTIMU_DATA F × Time)
  | 0, _ => []
  | n + 1, w =>
    let w1 := (pf.IMURead w).2
    (pf.getIMUData w1, pf.now w1) :: Platform.drained pf n w1

/-- The world after `n + 1` calls of `IMURead`. -/
def Platform.afterReads (pf : Platform W F) : Nat → W → W
  | 0, w => (pf.IMURead w).2
  | n + 1, w => Platform.afterReads pf n (pf.IMURead w).2

/-- Whether a publication is an `sensor_msgs::Imu` message. -/
def Publication.isImu (p : Publication F) : Bool :=
  match p.msg with
  | Message.imu _ => true
  | Message.vector3Stamped _ => false

/-- Whether an event is the call of `r.sleep()`. -/
def Event.isSleep : Event F → Bool
  | Event.sleep => true
  | _ => false

end Drain

/-- The messages published for a list of samples with their times, sample
after sample. -/
def I2cImu.publishAll {F : Type} [OfScientific F] [Mul F] [Neg F] (node : I2cImu F) :
    List (RTIMU_DATA F × Time) → List (Publication F)
  | [] => []
  | dt :: rest => node.publishSample dt.1 dt.2 ++ I2cImu.publishAll node rest

/-! ## Concrete inputs

A rational instance of the scalar type, a device that hands out a queue of
samples, and parameter sources, to evaluate the definitions on. -/

/-- Modelled from the spec: the constant pi that the conversion to degrees
divides by.  It is not among the sources; it is taken as the decimal expansion
of pi to 20 places, the literal `M_PI` of `math.h`. -/
def M_PI : ℚ := 3.14159265358979323846

/-- Modelled from the spec: `angles::to_degrees`, of the package `angles`,
which is not among the sources.  The declination "is supplied in radians and
stored internally in degrees": the value times 180 over pi, here in exact
rational arithmetic. -/
def angles.to_degrees (radians : ℚ) : ℚ := radians * 180 / M_PI

/-- A settings record with calibration disabled, bus 1 and every other member
zero. -/
def blankSettings : I2cImu.ImuSettings ℚ :=
  { m_imuType := 0
    m_fusionType := 0
    m_I2CBus := 1
    m_I2CSlaveAddress := 0
    m_compassAdjDeclination := 0
    m_MPU9150GyroAccelSampleRate := 0
    m_MPU9150CompassSampleRate := 0
    m_MPU9150AccelFsr := 0
    m_MPU9150GyroAccelLpf := 0
    m_MPU9150GyroFsr := 0
    m_MPU9250GyroAccelSampleRate := 0
    m_MPU9250CompassSampleRate := 0
    m_MPU9250AccelFsr := 0
    m_MPU9250AccelLpf := 0
    m_MPU9250GyroFsr := 0
    m_MPU9250GyroLpf := 0
    m_GD20HM303DGyroSampleRate := 0
    m_GD20HM303DAccelSampleRate := 0
    m_GD20HM303DCompassSampleRate := 0
    m_GD20HM303DAccelFsr := 0
    m_GD20HM303DGyroFsr := 0
    m_GD20HM303DCompassFsr := 0
    m_GD20HM303DAccelLpf := 0
    m_GD20HM303DGyroHpf := 0
    m_GD20HM303DGyroBW := 0
    m_GD20M303DLHCGyroSampleRate := 0
    m_GD20M303DLHCAccelSampleRate := 0
    m_GD20M303DLHCCompassSampleRate := 0
    m_GD20M303DLHCAccelFsr := 0
    m_GD20M303DLHCGyroFsr := 0
    m_GD20M303DLHCCompassFsr := 0
    m_GD20M303DLHCGyroHpf := 0
    m_GD20M303DLHCGyroBW := 0
    m_GD20HM303DLHCGyroSampleRate := 0
    m_GD20HM303DLHCAccelSampleRate := 0
    m_GD20HM303DLHCCompassSampleRate := 0
    m_GD20HM303DLHCAccelFsr := 0
    m_GD20HM303DLHCGyroFsr := 0
    m_GD20HM303DLHCCompassFsr := 0
    m_GD20HM303DLHCGyroHpf := 0
    m_GD20HM303DLHCGyroBW := 0
    m_LSM9DS0GyroSampleRate := 0
    m_LSM9DS0AccelSampleRate := 0
    m_LSM9DS0CompassSampleRate := 0
    m_LSM9DS0AccelFsr := 0
    m_LSM9DS0GyroFsr := 0
    m_LSM9DS0CompassFsr := 0
    m_LSM9DS0AccelLpf := 0
    m_LSM9DS0GyroHpf := 0
    m_LSM9DS0GyroBW := 0
    m_compassCalValid := false
    m_compassCalMin := ⟨0, 0, 0⟩
    m_compassCalMax := ⟨0, 0, 0⟩ }

/-- The parameter source with no key at all. -/
def noParams : NodeHandle ℚ :=
  { getInt := fun _ => none
    getDouble := fun _ => none
    getBool := fun _ => none
    getString := fun _ => none
    getIntVector := fun _ => none }

/-- A parameter source that sets `i2c_bus` to 300 and nothing else. -/
def busParams : NodeHandle ℚ :=
  { noParams with getInt := fun key => if key = "i2c_bus" then some 300 else none }

/-- A parameter source that sets `magnetic_declination` to 0.7853981634 and
nothing else. -/
def declinationParams : NodeHandle ℚ :=
  { noParams with
    getDouble := fun key => if key = "magnetic_declination" then some 0.7853981634 else none }

/-- A parameter source that enables both optional channels and supplies both
calibration bounds with 3 components. -/
def fullParams : NodeHandle ℚ :=
  { noParams with
    getBool := fun key =>
      if key = "publish_magnetometer" then some true
      else if key = "publish_euler" then some true
      else none
    getIntVector := fun key =>
      if key = "calib/compass_min" then some [-10, -20, -30]
      else if key = "calib/compass_max" then some [10, 20, 30]
      else none }

/-- A device with a queue of samples: the sample last read and those still
to read. -/
structure QueueDevice where
  latest : RTIMU_DATA ℚ
  queued : List (RTIMU_DATA ℚ)

/-- The platform of a queue device that opens and initialises, with a clock
that reads the number of samples still queued, and a node that is `ok` as long
as a sample is queued. -/
def queuePlatform : Platform QueueDevice ℚ :=
  { createIMU := fun _ w => (true, w)
    IMUInit := fun w => (true, w)
    IMUGetPollInterval := fun _ => 10
    IMURead := fun w =>
      match w.queued with
      | [] => (false, w)
      | d :: rest => (true, ⟨d, rest⟩)
    getIMUData := fun w => w.latest
    now := fun w => w.queued.length
    ok := fun w => !w.queued.isEmpty
    spinOnce := fun w => w
    sleep := fun _ w => w }

/-- A sample with a valid compass reading and 1.0 on the first axis of the
acceleration. -/
def sampleA : RTIMU_DATA ℚ :=
  { fusionPose := ⟨1, 2, 3⟩
    fusionQPose := ⟨1, 0, 0, 0⟩
    gyro := ⟨4, 5, 6⟩
    accel := ⟨1.0, 0, 2⟩
    compass := ⟨7, 8, 9⟩
    compassValid := true }

/-- A queue device with three samples queued. -/
def threeQueued : QueueDevice := ⟨sampleA, [sampleA, sampleA, sampleA]⟩

/-- The node constructed from `fullParams` over `blankSettings`. -/
def exampleNode : I2cImu ℚ := I2cImu.members angles.to_degrees blankSettings fullParams

/-! ## Lemmas on the parameter resolver -/

/-- From a state with calibration disabled, the flag computed by `loadCalib` is true exactly under the guard of the source. -/
theorem loadCalib_valid_iff {F : Type} [IntCast F] (nh : NodeHandle F)
    (s : I2cImu.ImuSettings F) (hs : s.m_compassCalValid = false) :
    (I2cImu.ImuSettings.loadCalib nh s).1 = true ↔
      ∃ mn mx, nh.getIntVector "calib/compass_min" = some mn ∧
        nh.getIntVector "calib/compass_max" = some mx ∧ mn.length = 3 ∧ mx.length = 3 := by
  unfold I2cImu.ImuSettings.loadCalib
  cases hmin : nh.getIntVector "calib/compass_min" with
  | none => simp [hs]
  | some mn =>
    cases hmax : nh.getIntVector "calib/compass_max" with
    | none => simp [hs]
    | some mx =>
      by_cases h : mn.length = 3 ∧ mx.length = 3
      · simp [h]
      · simp only [h, if_false, hs]
        simp
        intro h1 h2
        exact h ⟨h1, h2⟩

/-- The value `getParam` leaves in the variable is the supplied one, or the old one. -/
theorem getParam_eq_getD {F : Type} (nh : NodeHandle F) (key : String) (var : Int) :
    nh.getParam key var = (nh.getInt key).getD var := by
  unfold NodeHandle.getParam
  cases nh.getInt key <;> rfl

/-- Reading the same key twice into a variable is reading it once. -/
theorem getParam_getParam {F : Type} (nh : NodeHandle F) (key : String) (var : Int) :
    nh.getParam key (nh.getParam key var) = nh.getParam key var := by
  unfold NodeHandle.getParam
  cases nh.getInt key <;> rfl

/-- The calibration triple computed from a state that already holds the triple computed from `s` is that triple. -/
theorem loadCalib_congr {F : Type} [IntCast F] (nh : NodeHandle F) (s t : I2cImu.ImuSettings F)
    (h1 : t.m_compassCalValid = (I2cImu.ImuSettings.loadCalib nh s).1)
    (h2 : t.m_compassCalMin = (I2cImu.ImuSettings.loadCalib nh s).2.1)
    (h3 : t.m_compassCalMax = (I2cImu.ImuSettings.loadCalib nh s).2.2) :
    I2cImu.ImuSettings.loadCalib nh t = I2cImu.ImuSettings.loadCalib nh s := by
  unfold I2cImu.ImuSettings.loadCalib at h1 h2 h3 ⊢
  cases hmin : nh.getIntVector "calib/compass_min" with
  | none => simp only [hmin] at h1 h2 h3 ⊢; rw [h1, h2, h3]
  | some mn =>
    cases hmax : nh.getIntVector "calib/compass_max" with
    | none => simp only [hmin, hmax] at h1 h2 h3 ⊢; rw [h1, h2, h3]
    | some mx =>
      by_cases h : mn.length = 3 ∧ mx.length = 3
      · simp only [h, and_self, if_true]
      · simp only [hmin, hmax, h, if_false] at h1 h2 h3 ⊢
        rw [h1, h2, h3]

/-- A second `loadSettings` with the same parameter source changes nothing. -/
theorem loadSettings_idem {F : Type} [OfScientific F] [IntCast F] (to_degrees : F → F)
    (nh : NodeHandle F) (s : I2cImu.ImuSettings F) :
    (s.loadSettings to_degrees nh).2.loadSettings to_degrees nh = s.loadSettings to_degrees nh := by
  have hc := loadCalib_congr nh s (s.loadSettings to_degrees nh).2 rfl rfl rfl
  simp only [I2cImu.ImuSettings.loadSettings] at hc ⊢
  rw [hc]
  simp only [getParam_getParam]
  congr 2 <;> cases nh.getInt _ <;> rfl

/-- Every member of the table `intParams` holds the supplied value, or the old one. -/
theorem intParams_loaded {F : Type} [OfScientific F] [IntCast F] (to_degrees : F → F)
    (nh : NodeHandle F) (s : I2cImu.ImuSettings F) :
    ∀ kf ∈ I2cImu.ImuSettings.intParams,
      kf.2 (s.loadSettings to_degrees nh).2 = (nh.getInt kf.1).getD (kf.2 s) := by
  unfold I2cImu.ImuSettings.intParams
  simp only [List.forall_mem_cons, I2cImu.ImuSettings.loadSettings, getParam_eq_getD]
  simp

/-- The result of `loadSettings` depends only on what the parameter source answers at the keys read. -/
theorem loadSettings_agree {F : Type} [OfScientific F] [IntCast F] (to_degrees : F → F)
    (nh nh2 : NodeHandle F) (s : I2cImu.ImuSettings F)
    (hint : ∀ kf ∈ (I2cImu.ImuSettings.intParams : List (String × (I2cImu.ImuSettings F → Int))),
      nh.getInt kf.1 = nh2.getInt kf.1)
    (hbus : nh.getInt "i2c_bus" = nh2.getInt "i2c_bus")
    (haddr : nh.getInt "i2c_slave_address" = nh2.getInt "i2c_slave_address")
    (hdecl : nh.getDouble "magnetic_declination" = nh2.getDouble "magnetic_declination")
    (hmin : nh.getIntVector "calib/compass_min" = nh2.getIntVector "calib/compass_min")
    (hmax : nh.getIntVector "calib/compass_max" = nh2.getIntVector "calib/compass_max") :
    s.loadSettings to_degrees nh = s.loadSettings to_degrees nh2 := by
  unfold I2cImu.ImuSettings.intParams at hint
  simp only [List.forall_mem_cons] at hint
  simp only [I2cImu.ImuSettings.loadSettings, I2cImu.ImuSettings.loadCalib, NodeHandle.getParam,
    NodeHandle.paramDouble, hbus, haddr, hdecl, hmin, hmax, hint]

/-! ## Lemmas on the node -/

/-- The constructor as a cascade of tests on what `createIMU` and `IMUInit` return. -/
theorem construct_eq {W F : Type} [OfScientific F] [IntCast F] (pf : Platform W F)
    (to_degrees : F → F) (defaults : I2cImu.ImuSettings F) (private_nh_ : NodeHandle F) (w : W) :
    I2cImu.construct pf to_degrees defaults private_nh_ w =
      if (pf.createIMU (defaults.loadSettings to_degrees private_nh_).2 w).1 = false then
        ([DriverCall.createIMU], Except.error "Failed to open the i2c device")
      else if (pf.IMUInit (pf.createIMU (defaults.loadSettings to_degrees private_nh_).2 w).2).1
          = false then
        ([DriverCall.createIMU, DriverCall.IMUInit], Except.error "Failed to init the IMU")
      else
        ([DriverCall.createIMU, DriverCall.IMUInit],
          Except.ok (I2cImu.members to_degrees defaults private_nh_,
            (pf.IMUInit (pf.createIMU (defaults.loadSettings to_degrees private_nh_).2 w).2).2)) := by
  unfold I2cImu.construct
  have hs : (I2cImu.members to_degrees defaults private_nh_).imu_settings_ =
      (defaults.loadSettings to_degrees private_nh_).2 := rfl
  simp only [hs]
  rcases h1 : pf.createIMU (defaults.loadSettings to_degrees private_nh_).2 w with ⟨b1, w1⟩
  cases b1
  · simp
  · rcases h2 : pf.IMUInit w1 with ⟨b2, w2⟩
    cases b2 <;> simp [h2]

/-- A node the constructor returns has the members computed from the parameters. -/
theorem construct_ok_node {W F : Type} [OfScientific F] [IntCast F] (pf : Platform W F)
    (to_degrees : F → F) (defaults : I2cImu.ImuSettings F) (private_nh_ : NodeHandle F) (w w2 : W)
    (node : I2cImu F)
    (hc : (I2cImu.construct pf to_degrees defaults private_nh_ w).2 = Except.ok (node, w2)) :
    node = I2cImu.members to_degrees defaults private_nh_ := by
  rw [construct_eq] at hc
  split at hc
  · simp at hc
  · split at hc
    · simp at hc
    · simp only [Except.ok.injEq, Prod.mk.injEq] at hc
      exact hc.1.symm

/-- The messages of one sample for a node built from the parameters: the `data` message, then the optional two. -/
theorem publishSample_members {F : Type} [OfScientific F] [IntCast F] [Mul F] [Neg F]
    (to_degrees : F → F) (defaults : I2cImu.ImuSettings F) (private_nh_ : NodeHandle F)
    (imuData : RTIMU_DATA F) (t : Time) :
    (I2cImu.members to_degrees defaults private_nh_).publishSample imuData t =
      [⟨"data", Message.imu ((I2cImu.members to_degrees defaults private_nh_).imu_msg imuData t)⟩]
      ++ (if private_nh_.getBool "publish_magnetometer" = some true ∧ imuData.compassValid = true
          then [⟨"mag", Message.vector3Stamped
            { header := { stamp := t,
                          frame_id := (I2cImu.members to_degrees defaults private_nh_).imu_frame_id_ }
              vector := { x := imuData.compass.x, y := imuData.compass.y,
                          z := imuData.compass.z } }⟩]
          else [])
      ++ (if private_nh_.getBool "publish_euler" = some true
          then [⟨"euler", Message.vector3Stamped
            { header := { stamp := t,
                          frame_id := (I2cImu.members to_degrees defaults private_nh_).imu_frame_id_ }
              vector := { x := imuData.fusionPose.x, y := imuData.fusionPose.y,
                          z := -imuData.fusionPose.z } }⟩]
          else []) := by
  unfold I2cImu.publishSample
  simp only [I2cImu.members, NodeHandle.paramBool, Publisher.publish, Publisher.isValid, advertise,
    Publisher.empty]
  rcases hm : private_nh_.getBool "publish_magnetometer" with _ | _ | _ <;>
  rcases he : private_nh_.getBool "publish_euler" with _ | _ | _ <;>
  cases hv : imuData.compassValid <;> simp

/-- With `n` successful reads ahead and more fuel than that, `update` returns the messages of the `n` samples. -/
theorem update_readsExactly {W F : Type} [OfScientific F] [Mul F] [Neg F] (pf : Platform W F)
    (node : I2cImu F) (n : Nat) :
    ∀ (w : W), pf.readsExactly n w = true → ∀ fuel, n < fuel →
      node.update pf fuel w = some (node.publishAll (pf.drained n w), pf.afterReads n w) := by
  induction n with
  | zero =>
    intro w h fuel hf
    obtain ⟨k, rfl⟩ : ∃ k, fuel = k + 1 := ⟨fuel - 1, by omega⟩
    simp only [Platform.readsExactly, Bool.not_eq_true'] at h
    rcases hr : pf.IMURead w with ⟨b, w1⟩
    rw [hr] at h
    simp only at h
    subst h
    simp [I2cImu.update, hr, Platform.drained, Platform.afterReads, I2cImu.publishAll]
  | succ n ih =>
    intro w h fuel hf
    obtain ⟨k, rfl⟩ : ∃ k, fuel = k + 1 := ⟨fuel - 1, by omega⟩
    simp only [Platform.readsExactly, Bool.and_eq_true] at h
    rcases hr : pf.IMURead w with ⟨b, w1⟩
    rw [hr] at h
    simp only at h
    obtain ⟨hb, hrest⟩ := h
    subst hb
    have := ih w1 hrest k (by omega)
    simp [I2cImu.update, hr, Platform.drained, Platform.afterReads, I2cImu.publishAll, this]

/-- A node built from the parameters publishes one `sensor_msgs::Imu` for each sample. -/
theorem publishAll_imu_count {F : Type} [OfScientific F] [IntCast F] [Mul F] [Neg F]
    (to_degrees : F → F) (defaults : I2cImu.ImuSettings F) (private_nh_ : NodeHandle F)
    (l : List (RTIMU_DATA F × Time)) :
    (((I2cImu.members to_degrees defaults private_nh_).publishAll l).filter
      Publication.isImu).length = l.length := by
  induction l with
  | nil => rfl
  | cons dt rest ih =>
    simp only [I2cImu.publishAll, List.filter_append, List.length_append, ih, List.length_cons]
    rw [publishSample_members]
    by_cases hm : private_nh_.getBool "publish_magnetometer" = some true ∧ dt.1.compassValid = true <;>
    by_cases he : private_nh_.getBool "publish_euler" = some true <;>
    simp [hm, he, Publication.isImu, List.filter] <;> omega

/-- The list of the first `n` samples has `n` entries. -/
theorem drained_length {W F : Type} (pf : Platform W F) (n : Nat) :
    ∀ w : W, (pf.drained n w).length = n := by
  induction n with
  | zero => intro w; rfl
  | succ n ih => intro w; simp [Platform.drained, ih]

/-- No publication is a sleep. -/
theorem filter_isSleep_publish {F : Type} (l : List (Publication F)) :
    (l.map Event.publish).filter Event.isSleep = [] := by
  induction l with
  | nil => rfl
  | cons p rest ih => simp [List.filter, Event.isSleep, ih]

/-- One pass of the loop of `spin`, given what `update` returns. -/
theorem spinTick_of_update {W F : Type} [OfScientific F] [Mul F] [Neg F] (pf : Platform W F)
    (node : I2cImu F) (r : F) (fuel : Nat) (w w1 : W) (published : List (Publication F))
    (h : node.update pf fuel w = some (published, w1)) :
    node.spinTick pf r fuel w =
      some (published.map Event.publish ++ [Event.spinOnce, Event.sleep],
        pf.sleep r (pf.spinOnce w1)) := by
  simp [I2cImu.spinTick, h]

/-- The loop of `spin` makes one pass when `nh_.ok()` holds before it and not after. -/
theorem spinLoop_one_tick {W F : Type} [OfScientific F] [Mul F] [Neg F] (pf : Platform W F)
    (node : I2cImu F) (r : F) (fuel : Nat) (w w3 : W) (events : List (Event F))
    (hok : pf.ok w = true) (ht : node.spinTick pf r fuel w = some (events, w3))
    (hstop : pf.ok w3 = false) (ticks : Nat) :
    node.spinLoop pf r fuel (ticks + 2) w = some (events, w3) := by
  simp [I2cImu.spinLoop, hok, ht, hstop]

/-! ## The parameter resolver: the claims -/

/-- C1: starting from settings whose calibration is disabled, after
`loadSettings` the flag `m_compassCalValid` is true exactly when both
`calib/compass_min` and `calib/compass_max` are readable and each has 3
components; in every other case it is still false. -/
theorem loadSettings_compassCalValid_iff {F : Type} [OfScientific F] [IntCast F]
    (to_degrees : F → F) (nh : NodeHandle F) (s : I2cImu.ImuSettings F)
    (hs : s.m_compassCalValid = false) :
    ((s.loadSettings to_degrees nh).2.m_compassCalValid = true ↔
      ∃ mn mx, nh.getIntVector "calib/compass_min" = some mn ∧
        nh.getIntVector "calib/compass_max" = some mx ∧ mn.length = 3 ∧ mx.length = 3) ∧
    ((¬ ∃ mn mx, nh.getIntVector "calib/compass_min" = some mn ∧
        nh.getIntVector "calib/compass_max" = some mx ∧ mn.length = 3 ∧ mx.length = 3) →
      (s.loadSettings to_degrees nh).2.m_compassCalValid = false) := by
  have h := loadCalib_valid_iff nh s hs
  refine ⟨h, fun hn => ?_⟩
  cases hv : (s.loadSettings to_degrees nh).2.m_compassCalValid with
  | false => rfl
  | true => exact absurd (h.mp hv) hn

/-- C1 at concrete inputs: with both bounds supplied with 3 components the
flag becomes true, and with no parameter at all it stays false. -/
theorem loadSettings_compassCalValid_iff_witness :
    blankSettings.m_compassCalValid = false ∧
    (blankSettings.loadSettings angles.to_degrees fullParams).2.m_compassCalValid = true ∧
    (blankSettings.loadSettings angles.to_degrees noParams).2.m_compassCalValid = false :=
  ⟨rfl,
   (loadSettings_compassCalValid_iff angles.to_degrees fullParams blankSettings rfl).1.mpr
     ⟨[-10, -20, -30], [10, 20, 30], rfl, rfl, rfl, rfl⟩,
   (loadSettings_compassCalValid_iff angles.to_degrees noParams blankSettings rfl).2
     (fun h => by
       obtain ⟨mn, mx, h1, _⟩ := h
       simp [noParams] at h1)⟩

/-- C6, as stated, fails: with `i2c_bus` supplied as 300 the stored bus is 44,
which is neither the supplied value nor the value before the call. -/
theorem loadSettings_i2c_bus_300 :
    busParams.getInt "i2c_bus" = some 300 ∧
    (blankSettings.loadSettings angles.to_degrees busParams).1 = true ∧
    (blankSettings.loadSettings angles.to_degrees busParams).2.m_I2CBus = 44 ∧
    ¬ ((blankSettings.loadSettings angles.to_degrees busParams).2.m_I2CBus = 300 ∨
       (blankSettings.loadSettings angles.to_degrees busParams).2.m_I2CBus = blankSettings.m_I2CBus) := by
  refine ⟨rfl, rfl, rfl, ?_⟩
  have h : (blankSettings.loadSettings angles.to_degrees busParams).2.m_I2CBus = 44 := rfl
  rw [h]
  decide

/-- C6 (amended): `loadSettings` always returns true.  Every `int` member read
with `getParam` holds the supplied value when its key is readable and its
value before the call otherwise.  `i2c_bus` and `i2c_slave_address` hold the
supplied integer reduced modulo 256, which is the supplied value itself when
it lies in 0..255, and keep their value when the key is not readable.  The
declination is `to_degrees` of the supplied value, or of 0.0.  The calibration
flag and bounds are written only when both bounds are readable with exactly 3
components, and are unchanged otherwise. -/
theorem loadSettings_fields {F : Type} [OfScientific F] [IntCast F] (to_degrees : F → F)
    (nh : NodeHandle F) (s : I2cImu.ImuSettings F) :
    (s.loadSettings to_degrees nh).1 = true ∧
    (∀ kf ∈ I2cImu.ImuSettings.intParams,
      kf.2 (s.loadSettings to_degrees nh).2 = (nh.getInt kf.1).getD (kf.2 s)) ∧
    (s.loadSettings to_degrees nh).2.m_I2CBus =
      ((nh.getInt "i2c_bus").map (fun v => v % 256)).getD s.m_I2CBus ∧
    (s.loadSettings to_degrees nh).2.m_I2CSlaveAddress =
      ((nh.getInt "i2c_slave_address").map (fun v => v % 256)).getD s.m_I2CSlaveAddress ∧
    (∀ v, nh.getInt "i2c_bus" = some v → 0 ≤ v → v < 256 →
      (s.loadSettings to_degrees nh).2.m_I2CBus = v) ∧
    (∀ v, nh.getInt "i2c_slave_address" = some v → 0 ≤ v → v < 256 →
      (s.loadSettings to_degrees nh).2.m_I2CSlaveAddress = v) ∧
    (s.loadSettings to_degrees nh).2.m_compassAdjDeclination =
      to_degrees ((nh.getDouble "magnetic_declination").getD (0.0 : F)) ∧
    ((s.loadSettings to_degrees nh).2.m_compassCalValid,
      (s.loadSettings to_degrees nh).2.m_compassCalMin,
      (s.loadSettings to_degrees nh).2.m_compassCalMax) =
      (match nh.getIntVector "calib/compass_min", nh.getIntVector "calib/compass_max" with
       | some [a0, a1, a2], some [b0, b1, b2] =>
         (true, ⟨(a0 : F), (a1 : F), (a2 : F)⟩, ⟨(b0 : F), (b1 : F), (b2 : F)⟩)
       | _, _ => (s.m_compassCalValid, s.m_compassCalMin, s.m_compassCalMax)) := by
  refine ⟨rfl, intParams_loaded to_degrees nh s, ?_, ?_, ?_, ?_, ?_, ?_⟩
  · simp only [I2cImu.ImuSettings.loadSettings, unsigned_char]
    cases nh.getInt "i2c_bus" <;> rfl
  · simp only [I2cImu.ImuSettings.loadSettings, unsigned_char]
    cases nh.getInt "i2c_slave_address" <;> rfl
  · intro v hv h0 h1
    simp only [I2cImu.ImuSettings.loadSettings, unsigned_char, hv]
    exact Int.emod_eq_of_lt h0 h1
  · intro v hv h0 h1
    simp only [I2cImu.ImuSettings.loadSettings, unsigned_char, hv]
    exact Int.emod_eq_of_lt h0 h1
  · simp only [I2cImu.ImuSettings.loadSettings, NodeHandle.paramDouble]
    cases nh.getDouble "magnetic_declination" <;> rfl
  · simp only [I2cImu.ImuSettings.loadSettings, I2cImu.ImuSettings.loadCalib]
    cases nh.getIntVector "calib/compass_min" with
    | none => rfl
    | some mn =>
      cases nh.getIntVector "calib/compass_max" with
      | none =>
        rcases mn with _ | ⟨a0, _ | ⟨a1, _ | ⟨a2, _ | ⟨a3, r⟩⟩⟩⟩ <;> rfl
      | some mx =>
        rcases mn with _ | ⟨a0, _ | ⟨a1, _ | ⟨a2, _ | ⟨a3, r⟩⟩⟩⟩ <;>
        rcases mx with _ | ⟨b0, _ | ⟨b1, _ | ⟨b2, _ | ⟨b3, t⟩⟩⟩⟩ <;>
        simp [RTVector3.ofInts]

/-- C7: loading is idempotent, from every starting state: a second
`loadSettings` with the same parameter source changes nothing.  It is
deterministic: two parameter sources that answer alike on the keys the
function reads give the same result, field for field. -/
theorem loadSettings_idempotent {F : Type} [OfScientific F] [IntCast F] (to_degrees : F → F)
    (nh : NodeHandle F) (s : I2cImu.ImuSettings F) :
    (s.loadSettings to_degrees nh).2.loadSettings to_degrees nh = s.loadSettings to_degrees nh ∧
    (∀ nh2 : NodeHandle F,
      (∀ kf ∈ (I2cImu.ImuSettings.intParams : List (String × (I2cImu.ImuSettings F → Int))),
        nh.getInt kf.1 = nh2.getInt kf.1) →
      nh.getInt "i2c_bus" = nh2.getInt "i2c_bus" →
      nh.getInt "i2c_slave_address" = nh2.getInt "i2c_slave_address" →
      nh.getDouble "magnetic_declination" = nh2.getDouble "magnetic_declination" →
      nh.getIntVector "calib/compass_min" = nh2.getIntVector "calib/compass_min" →
      nh.getIntVector "calib/compass_max" = nh2.getIntVector "calib/compass_max" →
      s.loadSettings to_degrees nh = s.loadSettings to_degrees nh2) :=
  ⟨loadSettings_idem to_degrees nh s,
   fun nh2 h1 h2 h3 h4 h5 h6 => loadSettings_agree to_degrees nh nh2 s h1 h2 h3 h4 h5 h6⟩

/-! ## The node: the claims -/

/-- C2: for a node that was constructed, the messages of one sample on the
topic `mag` are exactly one message carrying the compass vector of the sample
when `publish_magnetometer` was read as true and the sample has `compassValid`,
and none in the three other cases. -/
theorem magnetometer_published_iff {W F : Type} [OfScientific F] [IntCast F] [Mul F] [Neg F]
    (pf : Platform W F) (to_degrees : F → F) (defaults : I2cImu.ImuSettings F)
    (private_nh_ : NodeHandle F) (w w2 : W) (node : I2cImu F)
    (hc : (I2cImu.construct pf to_degrees defaults private_nh_ w).2 = Except.ok (node, w2))
    (imuData : RTIMU_DATA F) (t : Time) :
    (node.publishSample imuData t).filter (fun p => p.topic == "mag") =
      if private_nh_.getBool "publish_magnetometer" = some true ∧ imuData.compassValid = true then
        [⟨"mag", Message.vector3Stamped
          { header := { stamp := t, frame_id := node.imu_frame_id_ }
            vector := { x := imuData.compass.x, y := imuData.compass.y,
                        z := imuData.compass.z } }⟩]
      else [] := by
  have hn := construct_ok_node pf to_degrees defaults private_nh_ w w2 node hc
  subst hn
  rw [publishSample_members]
  by_cases hm : private_nh_.getBool "publish_magnetometer" = some true ∧
      imuData.compassValid = true <;>
  by_cases he : private_nh_.getBool "publish_euler" = some true <;>
  simp [hm, he, List.filter]

/-- C3: for a node that was constructed, whatever the channels and the
compass validity, the messages of one sample start with one message on the
topic `data` whose orientation and angular velocity are the `fusionQPose` and
`gyro` of the sample, and no other message of that sample is an
`sensor_msgs::Imu` or goes out on `data`. -/
theorem orientation_exactly_one_first {W F : Type} [OfScientific F] [IntCast F] [Mul F] [Neg F]
    (pf : Platform W F) (to_degrees : F → F) (defaults : I2cImu.ImuSettings F)
    (private_nh_ : NodeHandle F) (w w2 : W) (node : I2cImu F)
    (hc : (I2cImu.construct pf to_degrees defaults private_nh_ w).2 = Except.ok (node, w2))
    (imuData : RTIMU_DATA F) (t : Time) :
    ∃ (m : Imu F) (rest : List (Publication F)),
      node.publishSample imuData t = ⟨"data", Message.imu m⟩ :: rest ∧
      (∀ p ∈ rest, p.isImu = false ∧ p.topic ≠ "data") ∧
      ((node.publishSample imuData t).filter Publication.isImu).length = 1 ∧
      m.orientation = { x := imuData.fusionQPose.x, y := imuData.fusionQPose.y,
                        z := imuData.fusionQPose.z, w := imuData.fusionQPose.scalar } ∧
      m.angular_velocity = { x := imuData.gyro.x, y := imuData.gyro.y, z := imuData.gyro.z } ∧
      m.header = { stamp := t, frame_id := node.imu_frame_id_ } := by
  have hn := construct_ok_node pf to_degrees defaults private_nh_ w w2 node hc
  subst hn
  rw [publishSample_members]
  refine ⟨_, _, rfl, ?_, ?_, rfl, rfl, rfl⟩
  · by_cases hm : private_nh_.getBool "publish_magnetometer" = some true ∧
        imuData.compassValid = true <;>
    by_cases he : private_nh_.getBool "publish_euler" = some true <;>
    simp [hm, he, Publication.isImu]
  · by_cases hm : private_nh_.getBool "publish_magnetometer" = some true ∧
        imuData.compassValid = true <;>
    by_cases he : private_nh_.getBool "publish_euler" = some true <;>
    simp [hm, he, Publication.isImu, List.filter]

/-- C4: for a node that was constructed, the messages of one sample on the
topic `euler` are exactly one message with the x and y of `fusionPose` and the
negated z when `publish_euler` was read as true, and none otherwise. -/
theorem euler_published_iff {W F : Type} [OfScientific F] [IntCast F] [Mul F] [Neg F]
    (pf : Platform W F) (to_degrees : F → F) (defaults : I2cImu.ImuSettings F)
    (private_nh_ : NodeHandle F) (w w2 : W) (node : I2cImu F)
    (hc : (I2cImu.construct pf to_degrees defaults private_nh_ w).2 = Except.ok (node, w2))
    (imuData : RTIMU_DATA F) (t : Time) :
    (node.publishSample imuData t).filter (fun p => p.topic == "euler") =
      if private_nh_.getBool "publish_euler" = some true then
        [⟨"euler", Message.vector3Stamped
          { header := { stamp := t, frame_id := node.imu_frame_id_ }
            vector := { x := imuData.fusionPose.x, y := imuData.fusionPose.y,
                        z := -imuData.fusionPose.z } }⟩]
      else [] := by
  have hn := construct_ok_node pf to_degrees defaults private_nh_ w w2 node hc
  subst hn
  rw [publishSample_members]
  by_cases hm : private_nh_.getBool "publish_magnetometer" = some true ∧
      imuData.compassValid = true <;>
  by_cases he : private_nh_.getBool "publish_euler" = some true <;>
  simp [hm, he, List.filter]

/-- C5: for a node that was constructed, the first message of a sample is the
`sensor_msgs::Imu` whose linear acceleration is, axis by axis, the `accel` of
the sample times 9.80665; where multiplying by 1.0 is exact, an axis that
reads 1.0 comes out as 9.80665. -/
theorem linear_acceleration_scaled {W F : Type} [OfScientific F] [IntCast F] [Mul F] [Neg F]
    (pf : Platform W F) (to_degrees : F → F) (defaults : I2cImu.ImuSettings F)
    (private_nh_ : NodeHandle F) (w w2 : W) (node : I2cImu F)
    (hc : (I2cImu.construct pf to_degrees defaults private_nh_ w).2 = Except.ok (node, w2))
    (hone : ∀ x : F, (1.0 : F) * x = x)
    (imuData : RTIMU_DATA F) (t : Time) :
    ∃ (m : Imu F) (rest : List (Publication F)),
      node.publishSample imuData t = ⟨"data", Message.imu m⟩ :: rest ∧
      m.linear_acceleration.x = imuData.accel.x * (9.80665 : F) ∧
      m.linear_acceleration.y = imuData.accel.y * (9.80665 : F) ∧
      m.linear_acceleration.z = imuData.accel.z * (9.80665 : F) ∧
      (imuData.accel.x = (1.0 : F) → m.linear_acceleration.x = (9.80665 : F)) ∧
      (imuData.accel.y = (1.0 : F) → m.linear_acceleration.y = (9.80665 : F)) ∧
      (imuData.accel.z = (1.0 : F) → m.linear_acceleration.z = (9.80665 : F)) := by
  have hn := construct_ok_node pf to_degrees defaults private_nh_ w w2 node hc
  subst hn
  rw [publishSample_members]
  refine ⟨_, _, rfl, rfl, rfl, rfl, ?_, ?_, ?_⟩ <;>
  · intro h
    simp only [I2cImu.imu_msg, G_2_MPSS, h]
    exact hone _

/-- C2 at concrete inputs: the channel enabled and a valid compass reading
give the one message, the channel not enabled gives none. -/
theorem magnetometer_published_iff_witness :
    (I2cImu.construct queuePlatform angles.to_degrees blankSettings fullParams threeQueued).2 =
      Except.ok (exampleNode, threeQueued) ∧
    (exampleNode.publishSample sampleA 5).filter (fun p => p.topic == "mag") =
      [⟨"mag", Message.vector3Stamped
        { header := { stamp := 5, frame_id := "imu_link" }
          vector := { x := 7, y := 8, z := 9 } }⟩] ∧
    ((I2cImu.members angles.to_degrees blankSettings noParams).publishSample sampleA 5).filter
      (fun p => p.topic == "mag") = [] :=
  ⟨rfl,
   (magnetometer_published_iff queuePlatform angles.to_degrees blankSettings fullParams threeQueued
      threeQueued exampleNode rfl sampleA 5).trans (if_pos ⟨rfl, rfl⟩),
   (magnetometer_published_iff queuePlatform angles.to_degrees blankSettings noParams threeQueued
      threeQueued (I2cImu.members angles.to_degrees blankSettings noParams) rfl sampleA 5).trans
      (if_neg (fun h => by simp [noParams] at h))⟩

/-- C3 at concrete inputs: with both optional channels enabled the first
message of the sample is the one on `data`. -/
theorem orientation_exactly_one_first_witness :
    (I2cImu.construct queuePlatform angles.to_degrees blankSettings fullParams threeQueued).2 =
      Except.ok (exampleNode, threeQueued) ∧
    ∃ (m : Imu ℚ) (rest : List (Publication ℚ)),
      exampleNode.publishSample sampleA 5 = ⟨"data", Message.imu m⟩ :: rest ∧
      (∀ p ∈ rest, p.isImu = false ∧ p.topic ≠ "data") ∧
      ((exampleNode.publishSample sampleA 5).filter Publication.isImu).length = 1 ∧
      m.orientation = { x := 0, y := 0, z := 0, w := 1 } ∧
      m.angular_velocity = { x := 4, y := 5, z := 6 } ∧
      m.header = { stamp := 5, frame_id := "imu_link" } :=
  ⟨rfl,
   orientation_exactly_one_first queuePlatform angles.to_degrees blankSettings fullParams threeQueued
     threeQueued exampleNode rfl sampleA 5⟩

/-- C4 at concrete inputs: the channel enabled gives the one message with the
third component negated, the channel not enabled gives none. -/
theorem euler_published_iff_witness :
    (I2cImu.construct queuePlatform angles.to_degrees blankSettings fullParams threeQueued).2 =
      Except.ok (exampleNode, threeQueued) ∧
    (exampleNode.publishSample sampleA 5).filter (fun p => p.topic == "euler") =
      [⟨"euler", Message.vector3Stamped
        { header := { stamp := 5, frame_id := "imu_link" }
          vector := { x := 1, y := 2, z := -3 } }⟩] ∧
    ((I2cImu.members angles.to_degrees blankSettings noParams).publishSample sampleA 5).filter
      (fun p => p.topic == "euler") = [] :=
  ⟨rfl,
   (euler_published_iff queuePlatform angles.to_degrees blankSettings fullParams threeQueued
      threeQueued exampleNode rfl sampleA 5).trans (if_pos rfl),
   (euler_published_iff queuePlatform angles.to_degrees blankSettings noParams threeQueued
      threeQueued (I2cImu.members angles.to_degrees blankSettings noParams) rfl sampleA 5).trans
      (if_neg (fun h => by simp [noParams] at h))⟩

/-- C5 at concrete inputs, in exact arithmetic: the sample reads 1.0 on the
first axis, and the message carries 9.80665 there. -/
theorem linear_acceleration_scaled_witness :
    (I2cImu.construct queuePlatform angles.to_degrees blankSettings fullParams threeQueued).2 =
      Except.ok (exampleNode, threeQueued) ∧
    (∀ x : ℚ, (1.0 : ℚ) * x = x) ∧
    ∃ (m : Imu ℚ) (rest : List (Publication ℚ)),
      exampleNode.publishSample sampleA 5 = ⟨"data", Message.imu m⟩ :: rest ∧
      m.linear_acceleration.x = sampleA.accel.x * (9.80665 : ℚ) ∧
      m.linear_acceleration.y = sampleA.accel.y * (9.80665 : ℚ) ∧
      m.linear_acceleration.z = sampleA.accel.z * (9.80665 : ℚ) ∧
      (sampleA.accel.x = (1.0 : ℚ) → m.linear_acceleration.x = (9.80665 : ℚ)) ∧
      (sampleA.accel.y = (1.0 : ℚ) → m.linear_acceleration.y = (9.80665 : ℚ)) ∧
      (sampleA.accel.z = (1.0 : ℚ) → m.linear_acceleration.z = (9.80665 : ℚ)) :=
  ⟨rfl, fun x => by norm_num,
   linear_acceleration_scaled queuePlatform angles.to_degrees blankSettings fullParams threeQueued
     threeQueued exampleNode rfl (fun x => by norm_num) sampleA 5⟩

/-- C8: for a node that was constructed and a driver whose `IMURead` succeeds
exactly `n` times and then reports no sample, `update` with more than `n` units
of fuel returns, having published the messages of the `n` samples read, sample
after sample in the order read, `n` of them `sensor_msgs::Imu`; one pass of the
loop of `spin` is these publications, then `spinOnce`, then one `sleep`, and it
is all that `spin` does when `nh_.ok()` holds before the pass and not after. -/
theorem update_drains_all {W F : Type} [OfScientific F] [IntCast F] [Mul F] [Neg F] [Div F]
    (pf : Platform W F) (to_degrees : F → F) (defaults : I2cImu.ImuSettings F)
    (private_nh_ : NodeHandle F) (w0 w2 : W) (node : I2cImu F)
    (hc : (I2cImu.construct pf to_degrees defaults private_nh_ w0).2 = Except.ok (node, w2))
    (n : Nat) (w : W) (hread : pf.readsExactly n w = true) (fuel : Nat) (hf : n < fuel) (r : F) :
    node.update pf fuel w = some (node.publishAll (pf.drained n w), pf.afterReads n w) ∧
    (pf.drained n w).length = n ∧
    ((node.publishAll (pf.drained n w)).filter Publication.isImu).length = n ∧
    node.spinTick pf r fuel w =
      some ((node.publishAll (pf.drained n w)).map Event.publish ++ [Event.spinOnce, Event.sleep],
        pf.sleep r (pf.spinOnce (pf.afterReads n w))) ∧
    (((node.publishAll (pf.drained n w)).map Event.publish
        ++ [Event.spinOnce, Event.sleep]).filter Event.isSleep).length = 1 ∧
    (pf.ok w = true →
      pf.ok (pf.sleep (I2cImu.rate pf w) (pf.spinOnce (pf.afterReads n w))) = false →
      ∀ ticks, node.spin pf fuel (ticks + 2) w =
        some ((node.publishAll (pf.drained n w)).map Event.publish
            ++ [Event.spinOnce, Event.sleep],
          pf.sleep (I2cImu.rate pf w) (pf.spinOnce (pf.afterReads n w)))) := by
  have hn := construct_ok_node pf to_degrees defaults private_nh_ w0 w2 node hc
  subst hn
  have hu := update_readsExactly pf (I2cImu.members to_degrees defaults private_nh_) n w hread fuel hf
  refine ⟨hu, drained_length pf n w, ?_, spinTick_of_update pf _ r fuel w _ _ hu, ?_, ?_⟩
  · rw [publishAll_imu_count, drained_length]
  · rw [List.filter_append, filter_isSleep_publish]
    rfl
  · intro hok hstop ticks
    exact spinLoop_one_tick pf _ (I2cImu.rate pf w) fuel w _ _ hok
      (spinTick_of_update pf _ _ fuel w _ _ hu) hstop ticks

/-- C8 with three samples queued: `update` publishes three sets of messages,
three of them `sensor_msgs::Imu`, and the pass of `spin` sleeps once, after
them. -/
theorem update_drains_all_witness :
    (I2cImu.construct queuePlatform angles.to_degrees blankSettings fullParams threeQueued).2 =
      Except.ok (exampleNode, threeQueued) ∧
    queuePlatform.readsExactly 3 threeQueued = true ∧
    3 < 4 ∧
    (exampleNode.update queuePlatform 4 threeQueued =
      some (exampleNode.publishAll (queuePlatform.drained 3 threeQueued),
        queuePlatform.afterReads 3 threeQueued) ∧
    (queuePlatform.drained 3 threeQueued).length = 3 ∧
    ((exampleNode.publishAll (queuePlatform.drained 3 threeQueued)).filter
      Publication.isImu).length = 3 ∧
    exampleNode.spinTick queuePlatform 100 4 threeQueued =
      some ((exampleNode.publishAll (queuePlatform.drained 3 threeQueued)).map Event.publish
          ++ [Event.spinOnce, Event.sleep],
        queuePlatform.sleep 100 (queuePlatform.spinOnce (queuePlatform.afterReads 3 threeQueued))) ∧
    (((exampleNode.publishAll (queuePlatform.drained 3 threeQueued)).map Event.publish
        ++ [Event.spinOnce, Event.sleep]).filter Event.isSleep).length = 1 ∧
    exampleNode.spin queuePlatform 4 2 threeQueued =
      some ((exampleNode.publishAll (queuePlatform.drained 3 threeQueued)).map Event.publish
          ++ [Event.spinOnce, Event.sleep],
        queuePlatform.afterReads 3 threeQueued)) :=
  ⟨rfl, rfl, by decide,
   let h := update_drains_all queuePlatform angles.to_degrees blankSettings fullParams threeQueued
     threeQueued exampleNode rfl 3 threeQueued rfl 4 (by decide) 100
   ⟨h.1, h.2.1, h.2.2.1, h.2.2.2.1, h.2.2.2.2.1, h.2.2.2.2.2 rfl rfl 0⟩⟩

/-- C10: the constructor ends in the fatal error exactly when `createIMU`
returns no device or, the device being open, `IMUInit` reports failure; when
both succeed it returns the node; and when `createIMU` returns no device,
`IMUInit` is not among the calls made. -/
theorem construct_fatal_iff {W F : Type} [OfScientific F] [IntCast F]
    (pf : Platform W F) (to_degrees : F → F) (defaults : I2cImu.ImuSettings F)
    (private_nh_ : NodeHandle F) (w : W) :
    ((∃ msg, (I2cImu.construct pf to_degrees defaults private_nh_ w).2 = Except.error msg) ↔
      ((pf.createIMU (defaults.loadSettings to_degrees private_nh_).2 w).1 = false ∨
       ((pf.createIMU (defaults.loadSettings to_degrees private_nh_).2 w).1 = true ∧
        (pf.IMUInit (pf.createIMU (defaults.loadSettings to_degrees private_nh_).2 w).2).1
          = false))) ∧
    ((pf.createIMU (defaults.loadSettings to_degrees private_nh_).2 w).1 = true →
      (pf.IMUInit (pf.createIMU (defaults.loadSettings to_degrees private_nh_).2 w).2).1 = true →
      I2cImu.construct pf to_degrees defaults private_nh_ w =
        ([DriverCall.createIMU, DriverCall.IMUInit],
          Except.ok (I2cImu.members to_degrees defaults private_nh_,
            (pf.IMUInit
              (pf.createIMU (defaults.loadSettings to_degrees private_nh_).2 w).2).2))) ∧
    ((pf.createIMU (defaults.loadSettings to_degrees private_nh_).2 w).1 = false →
      I2cImu.construct pf to_degrees defaults private_nh_ w =
        ([DriverCall.createIMU], Except.error "Failed to open the i2c device") ∧
      DriverCall.IMUInit ∉ (I2cImu.construct pf to_degrees defaults private_nh_ w).1) ∧
    ((pf.createIMU (defaults.loadSettings to_degrees private_nh_).2 w).1 = true →
      (pf.IMUInit (pf.createIMU (defaults.loadSettings to_degrees private_nh_).2 w).2).1 = false →
      I2cImu.construct pf to_degrees defaults private_nh_ w =
        ([DriverCall.createIMU, DriverCall.IMUInit], Except.error "Failed to init the IMU")) := by
  rw [construct_eq]
  cases h1 : (pf.createIMU (defaults.loadSettings to_degrees private_nh_).2 w).1 <;>
  cases h2 : (pf.IMUInit (pf.createIMU (defaults.loadSettings to_degrees private_nh_).2 w).2).1 <;>
  simp

/-- The conversion to degrees with the constant `M_PI` differs from the one
with the real number pi by at most the value times `10⁻¹⁸`. -/
theorem to_degrees_near_pi (v : ℚ) :
    |((angles.to_degrees v : ℚ) : ℝ) - (v : ℝ) * 180 / Real.pi| ≤ |(v : ℝ)| / 10 ^ 18 := by
  have hlo : (3.14159265358979323846 : ℝ) < Real.pi := Real.pi_gt_d20
  have hhi : Real.pi < (3.14159265358979323847 : ℝ) := Real.pi_lt_d20
  have hM : ((M_PI : ℚ) : ℝ) = (3.14159265358979323846 : ℝ) := by
    simp only [M_PI]
    norm_num
  have hpi : (0 : ℝ) < Real.pi := Real.pi_pos
  have hMpos : (0 : ℝ) < ((M_PI : ℚ) : ℝ) := by rw [hM]; norm_num
  have hcast : ((angles.to_degrees v : ℚ) : ℝ) = (v : ℝ) * 180 / ((M_PI : ℚ) : ℝ) := by
    simp only [angles.to_degrees]
    push_cast
    ring
  rw [hcast]
  have hdiff : (v : ℝ) * 180 / ((M_PI : ℚ) : ℝ) - (v : ℝ) * 180 / Real.pi
      = (v : ℝ) * (180 * (Real.pi - ((M_PI : ℚ) : ℝ)) / (((M_PI : ℚ) : ℝ) * Real.pi)) := by
    field_simp
    ring
  rw [hdiff, abs_mul]
  have hk0 : 0 ≤ 180 * (Real.pi - ((M_PI : ℚ) : ℝ)) / (((M_PI : ℚ) : ℝ) * Real.pi) := by
    apply div_nonneg
    · rw [hM]; linarith
    · positivity
  rw [abs_of_nonneg hk0, div_eq_mul_inv |(v : ℝ)|]
  apply mul_le_mul_of_nonneg_left _ (abs_nonneg _)
  rw [div_le_iff₀ (by positivity)]
  have h9 : (9 : ℝ) ≤ ((M_PI : ℚ) : ℝ) * Real.pi := by
    rw [hM]
    nlinarith
  have hd : Real.pi - ((M_PI : ℚ) : ℝ) < 1 / 10 ^ 20 := by
    rw [hM]
    have : (3.14159265358979323847 : ℝ) - 3.14159265358979323846 = 1 / 10 ^ 20 := by norm_num
    linarith
  have h18 : ((10 : ℝ) ^ 18)⁻¹ = 1 / 10 ^ 18 := by norm_num
  rw [h18]
  have : (180 : ℝ) * (1 / 10 ^ 20) ≤ 1 / 10 ^ 18 * 9 := by norm_num
  nlinarith

/-- C9: in exact arithmetic, with `angles::to_degrees` as the value times 180
over pi, the stored declination is the conversion of the parameter
`magnetic_declination`: the supplied value times 180 over `M_PI`, within the
value times `10⁻¹⁸` of the value times 180 over the real number pi; it is 0
when the parameter is not readable; and for 0.7853981634 it is within `10⁻⁹` of
45. -/
theorem loadSettings_declination_degrees (nh : NodeHandle ℚ) (s : I2cImu.ImuSettings ℚ) :
    (s.loadSettings angles.to_degrees nh).2.m_compassAdjDeclination =
      (nh.getDouble "magnetic_declination").getD 0 * 180 / M_PI ∧
    (∀ v : ℚ, nh.getDouble "magnetic_declination" = some v →
      (s.loadSettings angles.to_degrees nh).2.m_compassAdjDeclination = v * 180 / M_PI ∧
      |(((s.loadSettings angles.to_degrees nh).2.m_compassAdjDeclination : ℚ) : ℝ)
          - (v : ℝ) * 180 / Real.pi| ≤ |(v : ℝ)| / 10 ^ 18) ∧
    (nh.getDouble "magnetic_declination" = none →
      (s.loadSettings angles.to_degrees nh).2.m_compassAdjDeclination = 0) ∧
    (nh.getDouble "magnetic_declination" = some 0.7853981634 →
      |(s.loadSettings angles.to_degrees nh).2.m_compassAdjDeclination - 45| < 1 / 10 ^ 9 ∧
      |(((s.loadSettings angles.to_degrees nh).2.m_compassAdjDeclination : ℚ) : ℝ) - 45|
        < 1 / 10 ^ 9) := by
  have hst : (s.loadSettings angles.to_degrees nh).2.m_compassAdjDeclination =
      angles.to_degrees ((nh.getDouble "magnetic_declination").getD 0) := by
    simp only [I2cImu.ImuSettings.loadSettings, NodeHandle.paramDouble]
    cases nh.getDouble "magnetic_declination" with
    | some v => rfl
    | none =>
      have h0 : (0.0 : ℚ) = 0 := by norm_num
      simp only [Option.getD_none, h0]
  have h45 : |angles.to_degrees 0.7853981634 - 45| < 1 / 10 ^ 9 := by
    simp only [angles.to_degrees, M_PI]
    rw [abs_lt]
    constructor <;> norm_num
  refine ⟨by rw [hst]; rfl, ?_, ?_, ?_⟩
  · intro v hv
    rw [hst, hv]
    exact ⟨rfl, to_degrees_near_pi v⟩
  · intro hn
    rw [hst, hn]
    simp [angles.to_degrees]
  · intro hv
    rw [hst, hv]
    refine ⟨h45, ?_⟩
    have : ((((angles.to_degrees 0.7853981634 : ℚ) - 45 : ℚ)) : ℝ)
        = ((angles.to_degrees 0.7853981634 : ℚ) : ℝ) - 45 := by push_cast; ring
    simp only [Option.getD_some]
    rw [← this, ← Rat.cast_abs]
    have h := (Rat.cast_lt (K := ℝ)).mpr h45
    simpa using h

/-- C9 at concrete inputs: the parameter 0.7853981634 is stored within `10⁻⁹`
of 45, and with no parameter the stored declination is 0. -/
theorem loadSettings_declination_degrees_witness :
    declinationParams.getDouble "magnetic_declination" = some 0.7853981634 ∧
    |(blankSettings.loadSettings angles.to_degrees declinationParams).2.m_compassAdjDeclination
        - 45| < 1 / 10 ^ 9 ∧
    (blankSettings.loadSettings angles.to_degrees noParams).2.m_compassAdjDeclination = 0 :=
  ⟨rfl,
   ((loadSettings_declination_degrees declinationParams blankSettings).2.2.2 rfl).1,
   (loadSettings_declination_degrees noParams blankSettings).2.2.1 rfl⟩

end I2cImuNode
